import Mathlib

/-!
Shallow embedding of the document-management form logic of
`src/components/manage-document-form.tsx`.

The submission handler `onSubmit` computes an add/remove delta between the
edited document list (the form's `documents` field, the spec's EditState)
and the `initialDocuments` prop (the spec's InitialSet), short-circuits
when the delta is empty, otherwise calls the external
`submitUpdateDocuments` service and consumes the resulting progress
stream.  The handler's observable behaviour is modelled as the list of
effect events it emits, in program order; component state updates are
replayed over that event list.  The `useEffect` keyed on
`initialDocuments` is modelled as a state transformer.
-/

/-- A JS `File` object, identified here by its name; the component never
inspects the payload, only forwards it, and a `File` object is always
truthy. -/
structure FileV where
  name : String
  deriving DecidableEq, Inhabited

/-- An entry of the form's `documents` array (type `Document` in the
source): `id` is `z.string().nullish()`, so possibly absent or empty;
`file` is an optional `File` payload. -/
structure Document where
  id : Option String
  name : String
  file : Option FileV
  deriving DecidableEq

/-- An entry of the `initialDocuments` prop: an `id` and a `name`, both
plain strings. -/
structure InitialDoc where
  id : String
  name : String
  deriving DecidableEq

/-- The argument of `submitUpdateDocuments`: the computed delta. -/
structure Delta where
  added : List FileV
  removed : List String
  deriving DecidableEq

/-- JS truthiness of an optional string, as in the source's `!!id` tests:
`undefined`, `null` and the empty string are falsy, every other string is
truthy. -/
def truthyId : Option String → Bool
  | some s => s != ""
  | none => false

/-- Source: `documents.filter((document) => !!document.file)`.  A present
`File` object is always truthy. -/
def addedDocuments (documents : List Document) : List Document :=
  documents.filter (fun d => d.file.isSome)

/-- Source: `addedDocuments.map((document) => document.file!)`. -/
def addedFiles (documents : List Document) : List FileV :=
  (addedDocuments documents).map (fun d => d.file.get!)

/-- Source: `documents.filter` keeping the entries whose `id` is truthy. -/
def remainedDocuments (documents : List Document) : List Document :=
  documents.filter (fun d => truthyId d.id)

/-- Source: `remainedDocuments.map` projecting `id` (the `as string[]`
cast is erased at runtime; the filter guarantees each `id` is a string). -/
def remainedDocumentIds (documents : List Document) : List String :=
  (remainedDocuments documents).map (fun d => d.id.get!)

/-- Source: `initialDocuments.filter` keeping the entries whose `id` is
truthy and does not occur in `remainedDocumentIds`. -/
def removedDocuments (initialDocuments : List InitialDoc)
    (documents : List Document) : List InitialDoc :=
  initialDocuments.filter
    (fun d => d.id != "" && !((remainedDocumentIds documents).contains d.id))

/-- Source: `removedDocuments.map` projecting `id`. -/
def removedDocumentIds (initialDocuments : List InitialDoc)
    (documents : List Document) : List String :=
  (removedDocuments initialDocuments documents).map (fun d => d.id)

/-- Source: `addedFiles.length || removedDocumentIds.length`, as the
boolean the `if (!isAnyFileChanged)` test coerces it to: a JS number is
truthy iff it is nonzero. -/
def isAnyFileChanged (initialDocuments : List InitialDoc)
    (documents : List Document) : Bool :=
  (addedFiles documents).length != 0 ||
    (removedDocumentIds initialDocuments documents).length != 0

/-- A JS error value as the catch block observes it: its optional
`message` field (absent or any string), and its image under
`JSON.stringify` (`none` models `undefined`, which `JSON.stringify`
returns for `undefined`, functions and symbols). -/
structure JsError where
  message : Option String
  json : Option String
  deriving DecidableEq

/-- Source: `(e as any).message || JSON.stringify(e) || e`.  Each `||`
falls through on a falsy operand (an absent field, the empty string,
`undefined`); the last resort is the raw error value itself, modelled as
`Sum.inr`. -/
def errorMessageOf (e : JsError) : String ⊕ JsError :=
  match e.message with
  | some m =>
      if m != "" then Sum.inl m
      else
        match e.json with
        | some j => if j != "" then Sum.inl j else Sum.inr e
        | none => Sum.inr e
  | none =>
      match e.json with
      | some j => if j != "" then Sum.inl j else Sum.inr e
      | none => Sum.inr e

/-- Behaviour of one submission stream: it yields its messages in order
and then either completes or throws a JS error on the next pull. -/
inductive StreamBehavior where
  | completes (messages : List String)
  | throwsAfter (messages : List String) (e : JsError)
  deriving DecidableEq

/-- The observable effects of the submission handler, in program order. -/
inductive Event where
  | setUpdating (b : Bool)
  | updateStart
  | setProgressMessage (m : Option String)
  | updateEnd (err : Option (String ⊕ JsError))
  | submitCall (d : Delta)
  deriving DecidableEq

/-- The try/catch body of `onSubmit`: compute the delta, short-circuit on
a no-op with an immediate success report, otherwise call the service and
consume its stream, setting the progress message for each yielded string;
a throw while pulling is caught and reported through `onUpdateEnd` with
the coerced error message. -/
def tryBlock (initialDocuments : List InitialDoc) (documents : List Document)
    (submitUpdateDocuments : Delta → StreamBehavior) : List Event :=
  if !(isAnyFileChanged initialDocuments documents) then
    [Event.updateEnd none]
  else
    Event.submitCall
        ⟨addedFiles documents, removedDocumentIds initialDocuments documents⟩ ::
      match
        submitUpdateDocuments
          ⟨addedFiles documents, removedDocumentIds initialDocuments documents⟩
      with
      | StreamBehavior.completes msgs =>
          msgs.map (fun m => Event.setProgressMessage (some m)) ++
            [Event.updateEnd none]
      | StreamBehavior.throwsAfter msgs e =>
          msgs.map (fun m => Event.setProgressMessage (some m)) ++
            [Event.updateEnd (some (errorMessageOf e))]

/-- The whole of `onSubmit`: set the busy flag, notify the boundary that
the update started, run the try/catch body, and finally clear the busy
flag and the progress message — the `finally` block runs on every exit
path, the early return included. -/
def onSubmit (initialDocuments : List InitialDoc) (documents : List Document)
    (submitUpdateDocuments : Delta → StreamBehavior) : List Event :=
  (Event.setUpdating true :: Event.updateStart ::
      tryBlock initialDocuments documents submitUpdateDocuments) ++
    [Event.setUpdating false, Event.setProgressMessage none]

/-- Component state: the two `useState` values and the form's `documents`
field (the spec's EditState). -/
structure CompState where
  isUpdating : Bool
  updateProgressMessage : Option String
  documents : List Document
  deriving DecidableEq

/-- Replay one effect over the component state; boundary callbacks and
the external call do not change component state. -/
def applyEvent (s : CompState) : Event → CompState
  | Event.setUpdating b => { s with isUpdating := b }
  | Event.setProgressMessage m => { s with updateProgressMessage := m }
  | _ => s

/-- An `initialDocuments` entry as `form.reset` stores it into the form:
an object with the `id` and `name` fields and no `file` property. -/
def docOfInitial (d : InitialDoc) : Document :=
  ⟨some d.id, d.name, none⟩

/-- The `useEffect` keyed on `initialDocuments`: it calls
`setUpdating(false)` and `form.reset` with the new list, and nothing
else. -/
def initialDocumentsEffect (s : CompState)
    (initialDocuments : List InitialDoc) : CompState :=
  { s with isUpdating := false,
           documents := initialDocuments.map docOfInitial }

/-- Projection of an effect trace to the events the parent boundary
observes: the `onUpdateStart` and `onUpdateEnd` calls. -/
def boundaryEvents (l : List Event) : List Event :=
  l.filter (fun e =>
    match e with
    | Event.updateStart => true
    | Event.updateEnd _ => true
    | _ => false)

/-- Spec wording of `added`: the file payloads of the documents in
EditState that carry a file payload, in EditState order. -/
def specAddedFiles (documents : List Document) : List FileV :=
  documents.filterMap (fun d => d.file)

/-- The ids of the documents still present in EditState, as the spec
reads them: every id a document carries, empty or not. -/
def editStateIds (documents : List Document) : List String :=
  documents.filterMap (fun d => d.id)

/-- Claim C1's wording of `removedIds`: every id present in InitialSet
that does not occur among the ids of documents still present in
EditState, with no truthiness proviso. -/
def specRemovedIds (initialDocuments : List InitialDoc)
    (documents : List Document) : List String :=
  (initialDocuments.filter
      (fun d => !((editStateIds documents).contains d.id))).map (fun d => d.id)

/-- Amended wording of `removedIds`: only the non-empty ids of InitialSet
that do not occur among the ids of documents still present in EditState
are reported as removed. -/
def specRemovedIdsAmended (initialDocuments : List InitialDoc)
    (documents : List Document) : List String :=
  (initialDocuments.filter
      (fun d => d.id != "" && !((editStateIds documents).contains d.id))).map
    (fun d => d.id)

/-- Claim C3's fallback order for the display string: the `message` field
when present and non-empty, otherwise the JSON-serialised form when one
exists, otherwise the raw error value itself. -/
def specErrorDisplay (e : JsError) : String ⊕ JsError :=
  match e.message with
  | some m =>
      if m != "" then Sum.inl m
      else
        match e.json with
        | some j => Sum.inl j
        | none => Sum.inr e
  | none =>
      match e.json with
      | some j => Sum.inl j
      | none => Sum.inr e

/-- The added files are exactly the file payloads of the documents that
carry one, in order: the source's filter-then-project pipeline agrees
with a direct `filterMap`. -/
theorem addedFiles_eq_filterMap (documents : List Document) :
    addedFiles documents = specAddedFiles documents := by
  induction documents with
  | nil => rfl
  | cons d ds ih =>
    cases hf : d.file with
    | none =>
      simp only [addedFiles, addedDocuments, specAddedFiles, List.filter_cons, hf,
        Option.isSome_none, List.filterMap_cons, Bool.false_eq_true, ite_false] at *
      exact ih
    | some f =>
      simp only [addedFiles, addedDocuments, specAddedFiles, List.filter_cons, hf,
        Option.isSome_some, List.filterMap_cons, ite_true, List.map_cons] at *
      rw [ih]
      rfl

/-- The remained ids are the EditState ids with the empty string filtered
out. -/
theorem remainedDocumentIds_eq (documents : List Document) :
    remainedDocumentIds documents =
      (editStateIds documents).filter (fun s => s != "") := by
  induction documents with
  | nil => rfl
  | cons d ds ih =>
    cases hid : d.id with
    | none =>
      simp only [remainedDocumentIds, remainedDocuments, editStateIds, truthyId,
        List.filter_cons, List.filterMap_cons, hid, Bool.false_eq_true, ite_false] at *
      exact ih
    | some s =>
      by_cases hs : s = ""
      · subst hs
        simp only [remainedDocumentIds, remainedDocuments, editStateIds, truthyId,
          List.filter_cons, List.filterMap_cons, hid, bne_self_eq_false,
          Bool.false_eq_true, ite_false] at *
        exact ih
      · simp only [remainedDocumentIds, remainedDocuments, editStateIds, truthyId,
          List.filter_cons, List.filterMap_cons, hid, bne_iff_ne.mpr hs, ite_true,
          List.map_cons, Option.get!] at *
        rw [ih]

/-- Dropping empty strings from a list does not change membership of a
non-empty string. -/
theorem contains_filter_bne (l : List String) (x : String) (hx : x ≠ "") :
    (l.filter (fun s => s != "")).contains x = l.contains x := by
  induction l with
  | nil => rfl
  | cons a l ih =>
    by_cases ha : a = ""
    · subst ha
      simp [List.filter_cons, ih, hx]
    · simp [List.filter_cons, bne_iff_ne.mpr ha, ih, hx]

/-- The removed ids of the source agree with the amended spec wording:
the non-empty InitialSet ids absent from the EditState ids. -/
theorem removedDocumentIds_eq_amended (initialDocuments : List InitialDoc)
    (documents : List Document) :
    removedDocumentIds initialDocuments documents =
      specRemovedIdsAmended initialDocuments documents := by
  unfold removedDocumentIds removedDocuments specRemovedIdsAmended
  congr 1
  apply List.filter_congr
  intro d _
  by_cases hd : d.id = ""
  · simp [hd]
  · rw [remainedDocumentIds_eq, contains_filter_bne _ _ hd]

/-- Boolean `contains` is false exactly on non-members. -/
theorem contains_eq_false_iff (l : List String) (y : String) :
    l.contains y = false ↔ y ∉ l := by
  rw [Bool.eq_false_iff]
  exact not_congr List.elem_iff

/-- Membership in the removed ids, characterised: a non-empty id carried
by some InitialSet entry and absent from the EditState ids. -/
theorem mem_removedDocumentIds (initialDocuments : List InitialDoc)
    (documents : List Document) (x : String) :
    x ∈ removedDocumentIds initialDocuments documents ↔
      x ≠ "" ∧ x ∉ editStateIds documents ∧ ∃ d ∈ initialDocuments, d.id = x := by
  rw [removedDocumentIds_eq_amended]
  unfold specRemovedIdsAmended
  constructor
  · intro hx
    obtain ⟨d, hd, hdx⟩ := List.mem_map.mp hx
    obtain ⟨hmem, hp⟩ := List.mem_filter.mp hd
    rw [Bool.and_eq_true] at hp
    subst hdx
    refine ⟨bne_iff_ne.mp hp.1, ?_, d, hmem, rfl⟩
    have h2 := hp.2
    rw [Bool.not_eq_true', contains_eq_false_iff] at h2
    exact h2
  · rintro ⟨hne, hnotin, d, hmem, hdx⟩
    subst hdx
    refine List.mem_map.mpr ⟨d, List.mem_filter.mpr ⟨hmem, ?_⟩, rfl⟩
    rw [Bool.and_eq_true]
    refine ⟨bne_iff_ne.mpr hne, ?_⟩
    rw [Bool.not_eq_true', contains_eq_false_iff]
    exact hnotin

/-- Claim C1, amended: for every EditState and InitialSet, `added` is
exactly the sequence of file payloads of the EditState documents that
carry a file payload, in EditState order, and `removedIds` is exactly the
non-empty ids present in InitialSet that do not occur among the ids of
documents still present in EditState.  (The amendment restricts the
removed ids to non-empty ones: the source's truthiness test excludes an
InitialSet entry whose id is the empty string, see the counterexample.) -/
theorem c1_delta_characterisation (initialDocuments : List InitialDoc)
    (documents : List Document) :
    addedFiles documents = specAddedFiles documents ∧
      removedDocumentIds initialDocuments documents =
        specRemovedIdsAmended initialDocuments documents :=
  ⟨addedFiles_eq_filterMap documents,
    removedDocumentIds_eq_amended initialDocuments documents⟩

/-- Claim C1 counterexample: with InitialSet holding one entry whose id is
the empty string and an empty EditState, the claim's reading of
`removedIds` yields the empty-string id while the code yields nothing, so
the two disagree. -/
theorem c1_counterexample :
    specRemovedIds [⟨"", "orphan.pdf"⟩] ([] : List Document) = [""] ∧
      removedDocumentIds [⟨"", "orphan.pdf"⟩] ([] : List Document) = [] ∧
      (removedDocumentIds [⟨"", "orphan.pdf"⟩] ([] : List Document) ==
          specRemovedIds [⟨"", "orphan.pdf"⟩] ([] : List Document)) = false := by
  decide

/-- Claim C2: when EditState retains every original id and carries no file
payloads, the delta is empty, the trace is exactly the no-op
short-circuit — busy flag set, start notification, immediate success
report, cleanup — and the external update service is never called. -/
theorem c2_noop_skips_submission (initialDocuments : List InitialDoc)
    (documents : List Document) (submitUpdateDocuments : Delta → StreamBehavior)
    (hid : ∀ d ∈ initialDocuments, d.id ∈ editStateIds documents)
    (hfile : ∀ d ∈ documents, d.file = none) :
    addedFiles documents = [] ∧
      removedDocumentIds initialDocuments documents = [] ∧
      onSubmit initialDocuments documents submitUpdateDocuments =
        [Event.setUpdating true, Event.updateStart, Event.updateEnd none,
          Event.setUpdating false, Event.setProgressMessage none] ∧
      ∀ d : Delta, Event.submitCall d ∉
        onSubmit initialDocuments documents submitUpdateDocuments := by
  have hadd : addedFiles documents = [] := by
    rw [addedFiles_eq_filterMap]
    exact List.filterMap_eq_nil_iff.mpr hfile
  have hrem : removedDocumentIds initialDocuments documents = [] := by
    rw [removedDocumentIds_eq_amended]
    unfold specRemovedIdsAmended
    rw [List.map_eq_nil_iff, List.filter_eq_nil_iff]
    intro d hd
    by_cases h : d.id = ""
    · simp [h]
    · have hmem := hid d hd
      have hc : (editStateIds documents).contains d.id = true := List.elem_iff.mpr hmem
      simp [hc]
      exact fun _ => hmem
  have htrace : onSubmit initialDocuments documents submitUpdateDocuments =
      [Event.setUpdating true, Event.updateStart, Event.updateEnd none,
        Event.setUpdating false, Event.setProgressMessage none] := by
    simp [onSubmit, tryBlock, isAnyFileChanged, hadd, hrem]
  refine ⟨hadd, hrem, htrace, ?_⟩
  intro d
  rw [htrace]
  simp

/-- Claim C2 witness: one persisted document kept unchanged. -/
theorem c2_witness :
    onSubmit [⟨"1", "a.pdf"⟩] [⟨some "1", "a.pdf", none⟩]
        (fun _ => StreamBehavior.completes ["never pulled"]) =
      [Event.setUpdating true, Event.updateStart, Event.updateEnd none,
        Event.setUpdating false, Event.setProgressMessage none] :=
  (c2_noop_skips_submission _ _ _ (by decide) (by decide)).2.2.1

/-- The source's error coercion agrees with the claim's fallback order
whenever the serialised form is not the empty string — which
`JSON.stringify` never returns. -/
theorem errorMessageOf_eq_spec (e : JsError) (h : e.json ≠ some "") :
    errorMessageOf e = specErrorDisplay e := by
  unfold errorMessageOf specErrorDisplay
  cases hm : e.message with
  | some m =>
    by_cases hme : m = ""
    · subst hme
      simp only [bne_self_eq_false, Bool.false_eq_true, ite_false]
      cases hj : e.json with
      | some j =>
        have hjne : j ≠ "" := by
          intro hj0
          subst hj0
          exact h hj
        simp [bne_iff_ne.mpr hjne]
      | none => rfl
    · simp [bne_iff_ne.mpr hme]
  | none =>
    cases hj : e.json with
    | some j =>
      have hjne : j ≠ "" := by
        intro hj0
        subst hj0
        exact h hj
      simp [bne_iff_ne.mpr hjne]
    | none => rfl

/-- Claim C3: when the progress stream throws after some messages, the
submission flow catches the error and calls `onUpdateEnd` with the display
value derived in the claimed fallback order — the `message` field when
present and non-empty, otherwise the JSON-serialised form, otherwise the
raw error value.  The hypothesis that the serialised form is not the
empty string reflects `JSON.stringify`, which never returns one. -/
theorem c3_stream_error_reported (initialDocuments : List InitialDoc)
    (documents : List Document) (submitUpdateDocuments : Delta → StreamBehavior)
    (msgs : List String) (e : JsError)
    (hchanged : isAnyFileChanged initialDocuments documents = true)
    (hstream : submitUpdateDocuments
        ⟨addedFiles documents, removedDocumentIds initialDocuments documents⟩ =
      StreamBehavior.throwsAfter msgs e)
    (hjson : e.json ≠ some "") :
    Event.updateEnd (some (specErrorDisplay e)) ∈
      onSubmit initialDocuments documents submitUpdateDocuments := by
  rw [← errorMessageOf_eq_spec e hjson]
  simp [onSubmit, tryBlock, hchanged, hstream]

/-- Claim C3 witness: one added file, a stream that yields one message and
then rejects with an error lacking a `message` field. -/
theorem c3_witness :
    Event.updateEnd (some (specErrorDisplay ⟨none, some "netfail"⟩)) ∈
      onSubmit [] [⟨none, "c.pdf", some ⟨"c.pdf"⟩⟩]
        (fun _ => StreamBehavior.throwsAfter ["uploading c.pdf"] ⟨none, some "netfail"⟩) :=
  c3_stream_error_reported _ _ _ _ _ (by decide) rfl (by decide)

/-- Claim C4: on every exit path of a submission attempt — completion,
a thrown error, or the no-op early return — replaying the emitted trace
leaves the busy flag false and the progress message cleared, whatever the
stream behaviour and the starting state. -/
theorem c4_cleanup_every_exit (initialDocuments : List InitialDoc)
    (documents : List Document) (submitUpdateDocuments : Delta → StreamBehavior)
    (s : CompState) :
    ((onSubmit initialDocuments documents submitUpdateDocuments).foldl
        applyEvent s).isUpdating = false ∧
      ((onSubmit initialDocuments documents submitUpdateDocuments).foldl
        applyEvent s).updateProgressMessage = none := by
  unfold onSubmit
  rw [List.foldl_append]
  exact ⟨rfl, rfl⟩

/-- Claim C5 counterexample: the `initialDocuments` effect leaves a
pending progress message in place — it is not reset to `none` as the
claim states. -/
theorem c5_counterexample :
    (initialDocumentsEffect ⟨true, some "uploading a.pdf", []⟩
        [⟨"1", "a.pdf"⟩]).updateProgressMessage = some "uploading a.pdf" ∧
      ((initialDocumentsEffect ⟨true, some "uploading a.pdf", []⟩
          [⟨"1", "a.pdf"⟩]).updateProgressMessage == (none : Option String)) = false := by
  decide

/-- Claim C5, amended: when the parent supplies a new InitialSet, the
effect resets the busy flag to false and EditState to a copy of the new
InitialSet, but leaves `updateProgressMessage` unchanged — the effect
calls only `setUpdating(false)` and `form.reset`; the stale progress
message is merely hidden (its display is gated on the busy flag) until
the submission flow's cleanup clears it. -/
theorem c5_reset_amended (s : CompState) (initialDocuments : List InitialDoc) :
    (initialDocumentsEffect s initialDocuments).isUpdating = false ∧
      (initialDocumentsEffect s initialDocuments).documents =
        initialDocuments.map docOfInitial ∧
      (initialDocumentsEffect s initialDocuments).updateProgressMessage =
        s.updateProgressMessage :=
  ⟨rfl, rfl, rfl⟩

/-- Claim C6: for every submission with a non-empty delta, the trace
starts with the busy flag being set, then the start notification, then
the external call — so `onUpdateStart` runs before any progress message
is awaited, and replaying the trace up to that point shows the busy flag
already set. -/
theorem c6_start_before_stream (initialDocuments : List InitialDoc)
    (documents : List Document) (submitUpdateDocuments : Delta → StreamBehavior)
    (s : CompState)
    (hchanged : isAnyFileChanged initialDocuments documents = true) :
    (onSubmit initialDocuments documents submitUpdateDocuments).take 3 =
      [Event.setUpdating true, Event.updateStart,
        Event.submitCall
          ⟨addedFiles documents, removedDocumentIds initialDocuments documents⟩] ∧
      (((onSubmit initialDocuments documents submitUpdateDocuments).take 1).foldl
        applyEvent s).isUpdating = true := by
  constructor
  · simp [onSubmit, tryBlock, hchanged]
  · simp [onSubmit, List.take, applyEvent]

/-- Claim C6 witness: removing the only persisted document. -/
theorem c6_witness :
    (onSubmit [⟨"1", "a.pdf"⟩] [] (fun _ => StreamBehavior.completes ["done"])).take 3 =
      [Event.setUpdating true, Event.updateStart,
        Event.submitCall
          ⟨addedFiles [], removedDocumentIds [⟨"1", "a.pdf"⟩] []⟩] ∧
      (((onSubmit [⟨"1", "a.pdf"⟩] []
            (fun _ => StreamBehavior.completes ["done"])).take 1).foldl
        applyEvent ⟨false, none, []⟩).isUpdating = true :=
  c6_start_before_stream _ _ _ _ (by decide)

/-- Claim C7 counterexample: InitialSet carries exactly one id, the empty
string, and EditState carries none — so exactly one originally-present id
is missing — yet the computed removed ids are empty instead of containing
that id. -/
theorem c7_counterexample :
    ([⟨"", "ghost.pdf"⟩] : List InitialDoc).map InitialDoc.id = [""] ∧
      editStateIds ([] : List Document) = [] ∧
      removedDocumentIds [⟨"", "ghost.pdf"⟩] ([] : List Document) = [] := by
  decide

/-- Claim C7, amended: when exactly one originally-present id is missing
from the EditState ids and that id is non-empty, the computed removed ids
contain that id and nothing else. -/
theorem c7_single_removal (initialDocuments : List InitialDoc)
    (documents : List Document) (x : String)
    (hx : x ≠ "")
    (hin : ∃ d ∈ initialDocuments, d.id = x)
    (hmiss : x ∉ editStateIds documents)
    (hothers : ∀ d ∈ initialDocuments, d.id ≠ x → d.id ∈ editStateIds documents) :
    x ∈ removedDocumentIds initialDocuments documents ∧
      ∀ y ∈ removedDocumentIds initialDocuments documents, y = x := by
  constructor
  · exact (mem_removedDocumentIds _ _ x).mpr ⟨hx, hmiss, hin⟩
  · intro y hy
    obtain ⟨hyne, hymiss, d, hd, hdy⟩ := (mem_removedDocumentIds _ _ y).mp hy
    subst hdy
    by_contra hne
    exact hymiss (hothers d hd hne)

/-- Claim C7 witness: two persisted documents, the second deleted. -/
theorem c7_witness :
    "2" ∈ removedDocumentIds [⟨"1", "a.pdf"⟩, ⟨"2", "b.docx"⟩]
        [⟨some "1", "a.pdf", none⟩] ∧
      ∀ y ∈ removedDocumentIds [⟨"1", "a.pdf"⟩, ⟨"2", "b.docx"⟩]
        [⟨some "1", "a.pdf", none⟩], y = "2" :=
  c7_single_removal _ _ _ (by decide) (by decide) (by decide) (by decide)

/-- Claim C8: the boundary-visible projection of every submission trace
starts with `onUpdateStart`, and when the delta is a no-op the boundary
observes exactly the pair `onUpdateStart` then `onUpdateEnd` with no
error — the start notification is not restricted to the submitting
path. -/
theorem c8_boundary_pair (initialDocuments : List InitialDoc)
    (documents : List Document) (submitUpdateDocuments : Delta → StreamBehavior) :
    (boundaryEvents
        (onSubmit initialDocuments documents submitUpdateDocuments)).head? =
      some Event.updateStart ∧
      (isAnyFileChanged initialDocuments documents = false →
        boundaryEvents (onSubmit initialDocuments documents submitUpdateDocuments) =
          [Event.updateStart, Event.updateEnd none]) := by
  constructor
  · simp [onSubmit, boundaryEvents, List.filter_cons]
  · intro hnoop
    simp [onSubmit, tryBlock, boundaryEvents, hnoop, List.filter_cons]

/-- Claim C9: an InitialSet entry whose id is the empty string is never
reported among the removed ids, whatever the EditState. -/
theorem c9_empty_id_never_removed (initialDocuments : List InitialDoc)
    (documents : List Document) :
    (removedDocumentIds initialDocuments documents).contains "" = false := by
  rw [contains_eq_false_iff]
  intro hmem
  obtain ⟨hne, -, -⟩ := (mem_removedDocumentIds _ _ "").mp hmem
  exact hne rfl

/-- Claim C10: an EditState document carrying both a non-empty id and a
file payload counts in both roles — its payload appears in `added` and
its id is excluded from the removed ids. -/
theorem c10_dual_role (initialDocuments : List InitialDoc)
    (documents : List Document) (d : Document) (f : FileV) (x : String)
    (hd : d ∈ documents) (hf : d.file = some f) (hx : d.id = some x)
    (hxe : x ≠ "") :
    f ∈ addedFiles documents ∧
      (removedDocumentIds initialDocuments documents).contains x = false := by
  constructor
  · rw [addedFiles_eq_filterMap]
    exact List.mem_filterMap.mpr ⟨d, hd, hf⟩
  · rw [contains_eq_false_iff]
    intro hmem
    obtain ⟨-, hmiss, -⟩ := (mem_removedDocumentIds _ _ x).mp hmem
    exact hmiss (List.mem_filterMap.mpr ⟨d, hd, hx⟩)

/-- Claim C10 witness: a re-uploaded document keeping its persisted id. -/
theorem c10_witness :
    (⟨"c.pdf"⟩ : FileV) ∈ addedFiles [⟨some "3", "c.pdf", some ⟨"c.pdf"⟩⟩] ∧
      (removedDocumentIds [⟨"3", "c.pdf"⟩]
          [⟨some "3", "c.pdf", some ⟨"c.pdf"⟩⟩]).contains "3" = false :=
  c10_dual_role [⟨"3", "c.pdf"⟩] [⟨some "3", "c.pdf", some ⟨"c.pdf"⟩⟩]
    ⟨some "3", "c.pdf", some ⟨"c.pdf"⟩⟩ ⟨"c.pdf"⟩ "3" (by decide) rfl rfl (by decide)
